import Mathlib

/-!
Verification development for the Zscaler → vManage prefix-list sync script
(`src/zscaler_to_vmanage.py`).  The pure reconciliation core — payload
extraction (`fetch_zscaler_prefixes`'s `add_cidr`/`walk`), delta and guard
computation, chunk partitioning, the create-vs-update decision, and the
exit-code / effect structure of `main` — is shallowly embedded below.
JSON payloads (the result of `r.json()`) are modelled by the `Json` type,
with Python `None` identified with JSON `null`; JSON numbers are modelled
as integers (the feeds carry integral mask lengths).  IP parsing and
canonical serialization follow CPython's `ipaddress` module
(`ip_network(-, strict=False)` and `str(network_address)`).
-/

/-- A JSON value as produced by `requests.Response.json()`.  Python `None`
is identified with `null`; numbers are modelled as integers. -/
inductive Json where
  | null : Json
  | bool (b : Bool) : Json
  | num (n : Int) : Json
  | str (s : String) : Json
  | arr (elems : List Json) : Json
  | obj (fields : List (String × Json)) : Json

/-- Python `v is None` (JSON `null` is Python `None`). -/
def Json.isNull : Json → Bool
  | .null => true
  | _ => false

/-- Python truthiness (`bool(v)`) for the JSON values above. -/
def jsonTruthy : Json → Bool
  | .null => false
  | .bool b => b
  | .num n => n != 0
  | .str s => !s.isEmpty
  | .arr xs => !xs.isEmpty
  | .obj fs => !fs.isEmpty

/-- Python `a or b` on JSON values: returns `a` when truthy, else `b`. -/
def pyOr (a b : Json) : Json := if jsonTruthy a then a else b

/-- Python `d.get(k)`: the first binding of `k`, with `None` (= `null`) as
default for a missing key. -/
def pyGet (fields : List (String × Json)) (k : String) : Json :=
  match fields.find? (fun p => p.1 == k) with
  | some p => p.2
  | none => Json.null

/-- Python `k in d`. -/
def hasKey (fields : List (String × Json)) (k : String) : Bool :=
  (fields.find? (fun p => p.1 == k)).isSome

mutual
/-- Python `repr` of a JSON value, used by `str` on containers.  String
escaping inside `repr` is not modelled (container text never parses as an
IP address either way). -/
def pyRepr : Json → String
  | .null => "None"
  | .bool b => if b then "True" else "False"
  | .num n => toString n
  | .str s => "'" ++ s ++ "'"
  | .arr xs => "[" ++ String.intercalate ", " (pyReprList xs) ++ "]"
  | .obj fs => "\x7b" ++ String.intercalate ", " (pyReprFields fs) ++ "\x7d"
def pyReprList : List Json → List String
  | [] => []
  | v :: vs => pyRepr v :: pyReprList vs
def pyReprFields : List (String × Json) → List String
  | [] => []
  | (k, v) :: fs => ("'" ++ k ++ "': " ++ pyRepr v) :: pyReprFields fs
end

/-- Python `str(v)` for a JSON value. -/
def pyStr : Json → String
  | .str s => s
  | v => pyRepr v

/-- Python whitespace characters stripped by `str.strip()`. -/
def pySpace (c : Char) : Bool :=
  c = ' ' || c = '\t' || c = '\n' || c = '\r' || c = '\x0b' || c = '\x0c'

/-- Python `str.strip()`. -/
def pyStrip (s : String) : String :=
  String.mk (((s.data.dropWhile pySpace).reverse.dropWhile pySpace).reverse)

/-- Value of a (previously checked) decimal digit string. -/
def decimalVal (cs : List Char) : Nat :=
  cs.foldl (fun a c => a * 10 + (c.toNat - '0'.toNat)) 0

/-- Python `int(s)` on the digit part of a string: nonempty decimal
digits only. -/
def pyIntDigits (cs : List Char) : Option Int :=
  if cs.isEmpty then none
  else if cs.all Char.isDigit then some ((decimalVal cs : Nat) : Int)
  else none

/-- Python `int(v)` on a JSON value, `none` when it raises. -/
def pyInt : Json → Option Int
  | .num n => some n
  | .bool b => some (if b then 1 else 0)
  | .str s =>
    match (pyStrip s).data with
    | '-' :: rest => (pyIntDigits rest).map (fun n => -n)
    | '+' :: rest => pyIntDigits rest
    | cs => pyIntDigits cs
  | _ => none

/-- Python `s.split(sep)` for a one-character separator: auxiliary over
the character list. -/
def splitCharAux (sep : Char) : List Char → List (List Char)
  | [] => [[]]
  | c :: cs =>
    let r := splitCharAux sep cs
    if c = sep then [] :: r
    else
      match r with
      | [] => [[c]]
      | g :: gs => (c :: g) :: gs

/-- Python `s.split(sep)` for a one-character separator. -/
def splitChar (s : String) (sep : Char) : List String :=
  (splitCharAux sep s.data).map String.mk

/-- Python `c in s` for a one-character needle. -/
def containsChar (s : String) (c : Char) : Bool := s.data.contains c

/-! ### CPython `ipaddress` parsing and canonical serialization -/

/-- One dotted-quad octet (`ipaddress._parse_octet`): ASCII digits only,
at most 3 characters, value ≤ 255, no leading zeros. -/
def parseOctet (s : String) : Option Nat :=
  if s.isEmpty then none
  else if !(s.data.all Char.isDigit) then none
  else if s.length > 3 then none
  else
    let n := decimalVal s.data
    if n > 255 then none
    else if s.length ≠ 1 && s.front = '0' then none
    else some n

/-- An IPv4 address string as a 32-bit integer
(`IPv4Address._ip_int_from_string`). -/
def parseIPv4 (s : String) : Option Nat :=
  match (splitChar s '.').mapM parseOctet with
  | some [a, b, c, d] => some (((a * 256 + b) * 256 + c) * 256 + d)
  | _ => none

/-- Hexadecimal digit test (`ipaddress._parse_hextet`'s character set). -/
def isHexDigit (c : Char) : Bool :=
  c.isDigit || ('a' ≤ c && c ≤ 'f') || ('A' ≤ c && c ≤ 'F')

/-- Value of one hexadecimal digit. -/
def hexVal (c : Char) : Nat :=
  if c.isDigit then c.toNat - '0'.toNat
  else if 'a' ≤ c then c.toNat - 'a'.toNat + 10
  else c.toNat - 'A'.toNat + 10

/-- One IPv6 hextet (`ipaddress._parse_hextet`): 1 to 4 hex digits. -/
def parseHextet (s : String) : Option Nat :=
  if s.isEmpty then none
  else if !(s.data.all isHexDigit) then none
  else if s.length > 4 then none
  else some (s.data.foldl (fun a c => a * 16 + hexVal c) 0)

/-- Lowercase hexadecimal rendering without padding (Python `'%x' % n`). -/
def hexStr (n : Nat) : String := String.mk (Nat.toDigits 16 n)

/-- Fold a list of 16-bit groups into one integer, most significant first. -/
def foldHextets (hs : List Nat) : Nat := hs.foldl (fun a h => a * 65536 + h) 0

/-- An IPv6 address string as a 128-bit integer
(`IPv6Address._ip_int_from_string`): `::` compression, optional embedded
IPv4 tail, 1–4 hex digits per group. -/
def parseIPv6 (s : String) : Option Nat :=
  if s.isEmpty then none else
  let parts0 := splitChar s ':'
  if parts0.length < 3 then none else
  let partsO : Option (List String) :=
    match parts0.getLast? with
    | some last =>
      if containsChar last '.' then
        (parseIPv4 last).map
          (fun ip => parts0.dropLast ++ [hexStr ((ip >>> 16) % 65536), hexStr (ip % 65536)])
      else some parts0
    | none => none
  match partsO with
  | none => none
  | some parts =>
    if parts.length > 9 then none else
    let n := parts.length
    let emptyMids :=
      ((parts.enum).filter (fun p => 0 < p.1 && p.1 < n - 1 && p.2 = "")).map (fun p => p.1)
    match emptyMids with
    | [] =>
      if n ≠ 8 then none
      else (parts.mapM parseHextet).map foldHextets
    | [i] =>
      let headEmpty := parts.head? = some ""
      let lastEmpty := parts.getLast? = some ""
      let hi := if headEmpty then i - 1 else i
      let lo0 := n - i - 1
      let lo := if lastEmpty then lo0 - 1 else lo0
      if headEmpty && hi ≠ 0 then none
      else if lastEmpty && lo ≠ 0 then none
      else if hi + lo ≥ 8 then none
      else
        ((parts.take hi).mapM parseHextet).bind (fun hs =>
          ((parts.drop (n - lo)).mapM parseHextet).map (fun ls =>
            foldHextets (hs ++ List.replicate (8 - (hi + lo)) 0 ++ ls)))
    | _ => none

/-- `ipaddress._count_righthand_zero_bits(number, bits)`: trailing zero
bits, capped at `bits` (all of them for `0`). -/
def tzFuel : Nat → Nat → Nat
  | 0, _ => 0
  | f + 1, n => if n % 2 = 0 then tzFuel f (n / 2) + 1 else 0

/-- `_prefix_from_ip_int`: the prefix length when `ipInt` is a valid
netmask over `bits` bits (contiguous leading ones), else `none`. -/
def maskPfxFromInt (bits ipInt : Nat) : Option Nat :=
  let tz := tzFuel bits ipInt
  let plen := bits - tz
  if ipInt >>> tz = 2 ^ plen - 1 then some plen else none

/-- IPv4 `_make_netmask` on a string: an all-digit prefix length ≤ 32, or
a dotted-quad netmask, or a dotted-quad hostmask. -/
def parseMaskV4 (s : String) : Option Nat :=
  if !s.isEmpty && s.data.all Char.isDigit then
    (if decimalVal s.data ≤ 32 then some (decimalVal s.data) else none)
  else
    match parseIPv4 s with
    | none => none
    | some ip =>
      match maskPfxFromInt 32 ip with
      | some p => some p
      | none => maskPfxFromInt 32 (2 ^ 32 - 1 - ip)

/-- IPv6 `_make_netmask` on a string: an all-digit prefix length ≤ 128. -/
def parseMaskV6 (s : String) : Option Nat :=
  if !s.isEmpty && s.data.all Char.isDigit then
    (if decimalVal s.data ≤ 128 then some (decimalVal s.data) else none)
  else none

/-- A parsed network: family version, network address (host bits zeroed)
and prefix length. -/
structure IPNet where
  version : Nat
  addr : Nat
  pfxLen : Nat
deriving DecidableEq, Repr

/-- Zero the low `bits - plen` host bits of `addr`. -/
def maskNet (bits addr plen : Nat) : Nat :=
  (addr >>> (bits - plen)) <<< (bits - plen)

/-- `IPv4Network(s, strict=False)`: at most one `/`; address part a dotted
quad; mask part a prefix length or (host)netmask; host bits zeroed. -/
def ipv4Network (s : String) : Option IPNet :=
  match splitChar s '/' with
  | [a] => (parseIPv4 a).map (fun ip => ⟨4, ip, 32⟩)
  | [a, p] =>
    (parseIPv4 a).bind (fun ip =>
      (parseMaskV4 p).map (fun pl => ⟨4, maskNet 32 ip pl, pl⟩))
  | _ => none

/-- `IPv6Network(s, strict=False)`. -/
def ipv6Network (s : String) : Option IPNet :=
  match splitChar s '/' with
  | [a] => (parseIPv6 a).map (fun ip => ⟨6, ip, 128⟩)
  | [a, p] =>
    (parseIPv6 a).bind (fun ip =>
      (parseMaskV6 p).map (fun pl => ⟨6, maskNet 128 ip pl, pl⟩))
  | _ => none

/-- `ipaddress.ip_network(s, strict=False)`: IPv4 first, IPv6 on failure. -/
def ipNetwork (s : String) : Option IPNet :=
  match ipv4Network s with
  | some net => some net
  | none => ipv6Network s

/-- `str(IPv4Address)`: dotted decimal. -/
def showIPv4 (n : Nat) : String :=
  toString ((n >>> 24) % 256) ++ "." ++ toString ((n >>> 16) % 256) ++ "."
    ++ toString ((n >>> 8) % 256) ++ "." ++ toString (n % 256)

/-- The eight 16-bit groups of an IPv6 integer, in `'%x'` form. -/
def v6Hextets (n : Nat) : List String :=
  (List.range 8).map (fun i => hexStr ((n >>> (16 * (7 - i))) % 65536))

/-- Longest (first on ties) run of `"0"` groups
(`IPv6Address._compress_hextets`' scan): `(start, length)`. -/
def bestZeroRun (hs : List String) : Nat × Nat :=
  let st := hs.foldl
    (fun (st : Nat × Nat × Nat × Nat × Nat) h =>
      let (bs, bl, cs, cl, i) := st
      if h = "0" then
        let cs2 := if cl = 0 then i else cs
        let cl2 := cl + 1
        if cl2 > bl then (cs2, cl2, cs2, cl2, i + 1) else (bs, bl, cs2, cl2, i + 1)
      else (bs, bl, 0, 0, i + 1))
    (0, 0, 0, 0, 0)
  (st.1, st.2.1)

/-- `_compress_hextets`: replace the best zero run (length ≥ 2) by an
empty group, adding boundary empty groups for a leading/trailing `::`. -/
def compressHextets (hs : List String) : List String :=
  let (bs, bl) := bestZeroRun hs
  if bl > 1 then
    let mid := hs.take bs ++ [""] ++ hs.drop (bs + bl)
      ++ (if bs + bl = hs.length then [""] else [])
    if bs = 0 then "" :: mid else mid
  else hs

/-- `str(IPv6Address)`: compressed lowercase hexadecimal form. -/
def showIPv6 (n : Nat) : String :=
  String.intercalate ":" (compressHextets (v6Hextets n))

/-- `f"{net.network_address}/{net.prefixlen}"`. -/
def netString (net : IPNet) : String :=
  (if net.version = 4 then showIPv4 net.addr else showIPv6 net.addr)
    ++ "/" ++ toString net.pfxLen

/-! ### The extractor: `add_cidr` and `walk` -/

/-- `add_cidr(value, mask)` from `fetch_zscaler_prefixes`: strip, parse
(`value` as-is when it contains `/`, else `value/int(mask)` when a mask
was supplied, else `value/32`), apply the family filter, and return the
canonical `network/prefixlen` string; `none` when the entry is dropped. -/
def addCidr (family : String) (value0 : String) (mask : Json) : Option String :=
  let value := pyStrip value0
  if value.isEmpty then none
  else
    let net? : Option IPNet :=
      if containsChar value '/' then ipNetwork value
      else if !mask.isNull then
        (pyInt mask).bind (fun m => ipNetwork (value ++ "/" ++ toString m))
      else ipNetwork (value ++ "/32")
    match net? with
    | none => none
    | some net =>
      if family = "ipv4" && net.version ≠ 4 then none
      else if family = "ipv6" && net.version ≠ 6 then none
      else some (netString net)

/-- The contribution of `add_cidr` to the accumulated set. -/
def addCidrSet (family : String) (value : String) (mask : Json) : Finset String :=
  match addCidr family value mask with
  | some c => {c}
  | none => ∅

/-- The mask-length lookup chain of `walk`:
`obj.get("masklength") or obj.get("maskLength") or obj.get("mask")`. -/
def maskOf (fields : List (String × Json)) : Json :=
  pyOr (pyGet fields "masklength") (pyOr (pyGet fields "maskLength") (pyGet fields "mask"))

/-- The dict-shape dispatch at the top of `walk`: an `"ipPrefix"` field
first, else a `"prefix"` field with the mask-length chain. -/
def dictShape (family : String) (fields : List (String × Json)) : Finset String :=
  if hasKey fields "ipPrefix" then
    addCidrSet family (pyStr (pyGet fields "ipPrefix")) Json.null
  else if hasKey fields "prefix" then
    addCidrSet family (pyStr (pyGet fields "prefix")) (maskOf fields)
  else ∅

mutual
/-- `walk` from `fetch_zscaler_prefixes`: the set of CIDR strings
accumulated over the payload tree. -/
def walk (family : String) : Json → Finset String
  | .obj fields => dictShape family fields ∪ walkFields family fields
  | .arr xs => walkList family xs
  | .str s => if containsChar s '/' then addCidrSet family s Json.null else ∅
  | .num _ => ∅
  | .bool _ => ∅
  | .null => ∅
def walkList (family : String) : List Json → Finset String
  | [] => ∅
  | v :: vs => walk family v ∪ walkList family vs
def walkFields (family : String) : List (String × Json) → Finset String
  | [] => ∅
  | (_, v) :: fs => walk family v ∪ walkFields family fs
end

/-- The pure core of `fetch_zscaler_prefixes`: the sorted list of
extracted CIDR strings (`sorted(cidrs)`). -/
def extract (family : String) (data : Json) : List String :=
  Finset.sort (fun a b => a ≤ b) (walk family data)

/-! ### Delta and guard (`main`, steps 1–2) -/

/-- The delta computation of `main`:
`to_add = sorted(new_set - old_set)`, `to_remove = sorted(old_set - new_set)`. -/
def syncDelta (oldCidrs newCidrs : List String) : List String × List String :=
  let oldSet := oldCidrs.toFinset
  let newSet := newCidrs.toFinset
  (Finset.sort (fun a b => a ≤ b) (newSet \ oldSet),
   Finset.sort (fun a b => a ≤ b) (oldSet \ newSet))

/-- The guard ratio of `main`:
`(len(to_remove) / max(1, len(old_cidrs))) * 100.0`, in exact arithmetic. -/
def removalPct (oldCidrs toRemove : List String) : ℚ :=
  ((toRemove.length : ℚ) / ((max 1 oldCidrs.length : ℕ) : ℚ)) * 100

/-! ### Chunk partitioning (`main`, step 4) -/

/-- Python `f"{n:02d}"` for `n ≥ 0`: zero-padded to at least two digits. -/
def fmt02 (n : Nat) : String :=
  if n < 10 then "0" ++ toString n else toString n

/-- The chunking logic of `main`: one chunk named `DPL_NAME` when the list
fits in `max(1, ZSCALER_MAX_CHUNK)` entries, else `ceil(total/max_chunk)`
contiguous slices named `DPL_NAME_{i+1:02d}`. -/
def makeChunks (dplName : String) (maxChunkCfg : Int) (newCidrs : List String) :
    List (String × List String) :=
  let total := newCidrs.length
  let maxChunk := (max 1 maxChunkCfg).toNat
  if total ≤ maxChunk then [(dplName, newCidrs)]
  else
    let numChunks := (total + maxChunk - 1) / maxChunk
    (List.range numChunks).map (fun i =>
      (dplName ++ "_" ++ fmt02 (i + 1), (newCidrs.drop (i * maxChunk)).take maxChunk))

/-! ### Planner: create vs. update (`main`, step 5) -/

/-- Python `i.get("name") == name` for a `name` that is a `str`. -/
def pyEqStr : Json → String → Bool
  | .str s, t => s == t
  | _, _ => false

/-- `item.get("listId") or item.get("id") or item.get("uuid") or ""`. -/
def listIdOf (item : List (String × Json)) : Json :=
  pyOr (pyGet item "listId") (pyOr (pyGet item "id") (pyOr (pyGet item "uuid") (Json.str "")))

/-- `next((i for i in existing_items if i.get("name") == name), None)`. -/
def findByName (existing : List (List (String × Json))) (name : String) :
    Option (List (String × Json)) :=
  existing.find? (fun item => pyEqStr (pyGet item "name") name)

/-- The action decided for one chunk: update the first existing object of
the same name (targeting its id), else create. -/
inductive PlanAction where
  | create : PlanAction
  | update (listId : Json) : PlanAction

/-- The per-chunk decision of the apply loop. -/
def planChunk (existing : List (List (String × Json))) (name : String) : PlanAction :=
  match findByName existing name with
  | some item => PlanAction.update (listIdOf item)
  | none => PlanAction.create

/-- The whole reconciliation plan, in partitioner chunk order. -/
def buildPlan (existing : List (List (String × Json)))
    (chunks : List (String × List String)) :
    List (String × List String × PlanAction) :=
  chunks.map (fun c => (c.1, c.2, planChunk existing c.1))

/-! ### The run model of `main` -/

/-- Externally visible side effects of one run, in program order.  A
`createDpl`/`updateDpl` effect records that the corresponding HTTP call
was issued (it is present even when the call fails and raises). -/
inductive Effect where
  | login : Effect
  | backup (name : String) : Effect
  | createDpl (name : String) (cidrs : List String) : Effect
  | updateDpl (listId : Json) (name : String) (cidrs : List String) : Effect
  | writeCache (cidrs : List String) : Effect
  | notifyTeams (success : Bool) : Effect

/-- `true` exactly for a remote call (login, create or update). -/
def isRemoteCall : Effect → Bool
  | .login => true
  | .createDpl _ _ => true
  | .updateDpl _ _ _ => true
  | _ => false

/-- `true` exactly for a remote mutation (create or update). -/
def isMutationCall : Effect → Bool
  | .createDpl _ _ => true
  | .updateDpl _ _ _ => true
  | _ => false

/-- `true` exactly for the snapshot (cache) write. -/
def isCacheWrite : Effect → Bool
  | .writeCache _ => true
  | _ => false

/-- How the process terminates: `main` returns an exit code, or an
exception escapes `main` (CPython then exits with code 1). -/
inductive RunResult where
  | exit (code : Int) : RunResult
  | uncaught : RunResult
deriving DecidableEq

/-- The process exit code of a terminal state: the returned code, or 1 for
an unhandled exception traceback. -/
def processExit : RunResult → Int
  | .exit c => c
  | .uncaught => 1

/-- Configuration consumed by `main` (environment-derived constants). -/
structure Config where
  dplName : String
  maxChunkCfg : Int
  maxRemovePct : ℚ
  family : String

/-- The external world of one run: the CLI flag, the fetched payload
(`none` when the fetch raises), the cache contents, the vManage session
and directory (`none` when login/list raises), and whether each chunk's
create/update call succeeds. -/
structure Env where
  dryRun : Bool
  payload : Option Json
  oldCidrs : List String
  remote : Option (List (List (String × Json)))
  applyOk : String → List String → Bool

/-- The per-chunk apply loop of `main` (step 5): backup + update for a
matched name, create otherwise; an exception on a chunk stops the loop
(`false` = a call raised). -/
def applyChunks (env : Env) (existing : List (List (String × Json))) :
    List (String × List String) → List Effect × Bool
  | [] => ([], true)
  | (name, slice) :: rest =>
    match findByName existing name with
    | some item =>
      let lid := listIdOf item
      if env.applyOk name slice then
        let r := applyChunks env existing rest
        (Effect.backup name :: Effect.updateDpl lid name slice :: r.1, r.2)
      else ([Effect.backup name, Effect.updateDpl lid name slice], false)
    | none =>
      if env.applyOk name slice then
        let r := applyChunks env existing rest
        (Effect.createDpl name slice :: r.1, r.2)
      else ([Effect.createDpl name slice], false)

/-- Steps 3–6 of `main`, after a successful login and directory listing:
base-list backup, chunking, apply loop, cache write and notification. -/
def runConnected (cfg : Config) (env : Env) (newCidrs : List String)
    (existing : List (List (String × Json))) : RunResult × List Effect :=
  let baseEff : List Effect :=
    match findByName existing cfg.dplName with
    | some _ => [Effect.backup cfg.dplName]
    | none => []
  let chunks := makeChunks cfg.dplName cfg.maxChunkCfg newCidrs
  let r := applyChunks env existing chunks
  if r.2 then
    (RunResult.exit 0,
     Effect.login :: baseEff ++ r.1 ++ [Effect.writeCache newCidrs, Effect.notifyTeams true])
  else
    (RunResult.uncaught, Effect.login :: baseEff ++ r.1)

/-- Steps 2–6 of `main`, after a successful fetch: delta, guard, dry-run
short circuit, then login/list and the connected phase. -/
def runFetched (cfg : Config) (env : Env) (data : Json) : RunResult × List Effect :=
  let newCidrs := extract cfg.family data
  let toRemove := (syncDelta env.oldCidrs newCidrs).2
  if env.oldCidrs ≠ [] ∧ removalPct env.oldCidrs toRemove > cfg.maxRemovePct then
    (RunResult.exit 2, [Effect.notifyTeams false])
  else if env.dryRun then
    (RunResult.exit 0, [])
  else
    match env.remote with
    | none => (RunResult.exit 3, [Effect.notifyTeams false])
    | some existing => runConnected cfg env newCidrs existing

/-- The control flow of `main`: fetch, delta, guard, dry-run short
circuit, login/list, base-list backup, chunking, apply loop, cache write
and notification.  Returns the terminal state and the effect trace. -/
def runMain (cfg : Config) (env : Env) : RunResult × List Effect :=
  match env.payload with
  | none => (RunResult.exit 1, [Effect.notifyTeams false])
  | some data => runFetched cfg env data

/-! ### Helper lemmas -/

theorem chunksJoin (mc : Nat) :
    ∀ (n : Nat) (l : List String),
      (((List.range n).map (fun i => (l.drop (i * mc)).take mc)).flatten) = l.take (n * mc) := by
  intro n
  induction n with
  | zero => intro l; simp
  | succ n ih =>
    intro l
    rw [List.range_succ_eq_map]
    simp only [List.map_cons, List.map_map, List.flatten_cons, Nat.zero_mul, List.drop_zero]
    have hshift :
        (List.range n).map ((fun i => (l.drop (i * mc)).take mc) ∘ Nat.succ)
          = (List.range n).map (fun i => ((l.drop mc).drop (i * mc)).take mc) := by
      apply List.map_congr_left
      intro i _
      simp only [Function.comp]
      rw [List.drop_drop]
      congr 2
      simp [Nat.succ_mul]
      ring
    rw [hshift, ih, ← List.take_add]
    congr 1
    simp [Nat.succ_mul]
    ring

theorem ceil_mul_ge (len mc : Nat) (hmc : 0 < mc) :
    len ≤ ((len + mc - 1) / mc) * mc := by
  by_contra hcon
  push_neg at hcon
  have h2 : ((len + mc - 1) / mc + 1) * mc ≤ len + mc - 1 := by
    have he : ((len + mc - 1) / mc + 1) * mc = (len + mc - 1) / mc * mc + mc := by ring
    omega
  have h3 := (Nat.le_div_iff_mul_le hmc).2 h2
  omega

/-! ### C2: delta correctness -/

/-- C2.  For every previous and current prefix list, `to_add` is exactly
`current − previous` and `to_remove` exactly `previous − current` as sets,
and both results are sorted ascending by canonical string form. -/
theorem C2_delta_correct (oldCidrs newCidrs : List String) :
    (∀ x, x ∈ (syncDelta oldCidrs newCidrs).1 ↔ x ∈ newCidrs ∧ x ∉ oldCidrs)
    ∧ (∀ x, x ∈ (syncDelta oldCidrs newCidrs).2 ↔ x ∈ oldCidrs ∧ x ∉ newCidrs)
    ∧ List.Sorted (fun a b => a ≤ b) (syncDelta oldCidrs newCidrs).1
    ∧ List.Sorted (fun a b => a ≤ b) (syncDelta oldCidrs newCidrs).2 := by
  refine ⟨fun x => ?_, fun x => ?_, ?_, ?_⟩ <;>
    simp [syncDelta, Finset.mem_sort, Finset.mem_sdiff, List.mem_toFinset, Finset.sort_sorted]

/-! ### C3: partitioning -/

/-- C3.  For every (sorted) current list, base name and configured chunk
size: a value ≤ 0 is coerced to 1; when the list fits, exactly one chunk
named exactly `base_name` holding the whole list; otherwise
`ceil(total/max_chunk)` contiguous slices (their concatenation is the
input), each of size ≤ `max_chunk` and itself sorted, named
`base_name ++ "_" ++ `2-digit-minimum zero-padded 1-based index, in
ascending index order. -/
theorem C3_partition (dplName : String) (mcz : Int) (l : List String)
    (hsorted : List.Sorted (fun a b => a ≤ b) l) :
    (mcz ≤ 0 → (max 1 mcz).toNat = 1)
    ∧ (l.length ≤ (max 1 mcz).toNat → makeChunks dplName mcz l = [(dplName, l)])
    ∧ ((max 1 mcz).toNat < l.length →
        (makeChunks dplName mcz l).length
            = (l.length + (max 1 mcz).toNat - 1) / (max 1 mcz).toNat
        ∧ ((makeChunks dplName mcz l).map (fun c => c.2)).flatten = l
        ∧ (∀ c ∈ makeChunks dplName mcz l,
            c.2.length ≤ (max 1 mcz).toNat ∧ List.Sorted (fun a b => a ≤ b) c.2)
        ∧ (makeChunks dplName mcz l).map (fun c => c.1)
            = (List.range ((l.length + (max 1 mcz).toNat - 1) / (max 1 mcz).toNat)).map
                (fun i => dplName ++ "_" ++ fmt02 (i + 1))
        ∧ (∀ i, i < (l.length + (max 1 mcz).toNat - 1) / (max 1 mcz).toNat →
            (makeChunks dplName mcz l)[i]?
              = some (dplName ++ "_" ++ fmt02 (i + 1),
                      (l.drop (i * (max 1 mcz).toNat)).take (max 1 mcz).toNat))) := by
  set mc := (max 1 mcz).toNat with hmcdef
  have hmc1 : 1 ≤ mc := by
    have : (1 : Int) ≤ max 1 mcz := le_max_left 1 mcz
    omega
  refine ⟨?_, ?_, ?_⟩
  · intro hz
    have : max 1 mcz = 1 := by
      rcases max_choice 1 mcz with h | h
      · exact h
      · rw [h]; omega
    rw [hmcdef, this]
    rfl
  · intro hle
    simp [makeChunks, ← hmcdef, hle]
  · intro hlt
    have hnle : ¬ l.length ≤ mc := by omega
    refine ⟨?_, ?_, ?_, ?_, ?_⟩
    · simp [makeChunks, ← hmcdef, hnle]
    · simp only [makeChunks, ← hmcdef, if_neg hnle, List.map_map]
      have : ((fun c : String × List String => c.2)
          ∘ fun i => (dplName ++ "_" ++ fmt02 (i + 1), (l.drop (i * mc)).take mc))
          = fun i => (l.drop (i * mc)).take mc := rfl
      rw [this, chunksJoin]
      apply List.take_of_length_le
      exact ceil_mul_ge l.length mc (by omega)
    · intro c hc
      simp only [makeChunks, ← hmcdef, if_neg hnle, List.mem_map, List.mem_range] at hc
      obtain ⟨i, _, rfl⟩ := hc
      constructor
      · simp [List.length_take]
      · exact hsorted.sublist ((List.take_sublist _ _).trans (List.drop_sublist _ _))
    · simp [makeChunks, ← hmcdef, if_neg hnle, List.map_map]
    · intro i hi
      simp [makeChunks, ← hmcdef, if_neg hnle, List.getElem?_map,
        List.getElem?_range hi]

/-! ### C4: planner -/

/-- C4.  The plan has one entry per chunk, in chunk order with the chunk's
name and contents; a chunk whose name equals (case-sensitively) the name of
some existing object is planned as an update targeting the id chain of the
first such object; a chunk matching no existing object is planned as a
create. -/
theorem C4_planner (existing : List (List (String × Json)))
    (chunks : List (String × List String)) :
    (buildPlan existing chunks).map (fun e => (e.1, e.2.1)) = chunks
    ∧ (∀ c ∈ chunks, (c.1, c.2, planChunk existing c.1) ∈ buildPlan existing chunks)
    ∧ (∀ name, (∃ item ∈ existing, pyEqStr (pyGet item "name") name = true) →
        ∃ item, findByName existing name = some item
          ∧ pyEqStr (pyGet item "name") name = true
          ∧ planChunk existing name = PlanAction.update (listIdOf item))
    ∧ (∀ name, (∀ item ∈ existing, pyEqStr (pyGet item "name") name = false) →
        planChunk existing name = PlanAction.create) := by
  refine ⟨?_, ?_, ?_, ?_⟩
  · rw [buildPlan, List.map_map]
    exact List.map_id chunks
  · intro c hc
    simp only [buildPlan, List.mem_map]
    exact ⟨c, hc, rfl⟩
  · intro name hex
    have hsome : (findByName existing name).isSome := by
      rw [findByName, List.find?_isSome]
      obtain ⟨item, hmem, hp⟩ := hex
      exact ⟨item, hmem, hp⟩
    obtain ⟨item, hitem⟩ := Option.isSome_iff_exists.mp hsome
    have hfind : List.find? (fun it => pyEqStr (pyGet it "name") name) existing = some item :=
      hitem
    have hp := List.find?_some hfind
    refine ⟨item, hitem, hp, ?_⟩
    simp [planChunk, hitem]
  · intro name hall
    have hnone : findByName existing name = none := by
      rw [findByName, List.find?_eq_none]
      intro item hmem
      simp [hall item hmem]
    simp [planChunk, hnone]

/-! ### C5: bare-address normalization -/

/-- C5.  A bare IPv4 address with no mask becomes a `/32` host, but the
code appends `/32` to bare IPv6 addresses as well (despite its own
`assume host /32 or /128` comment), producing a `/32` IPv6 network with
host bits zeroed instead of the `/128` host the claim states. -/
theorem C5_bare_address_masks :
    addCidr "ipv4" "10.0.0.5" Json.null = some "10.0.0.5/32"
    ∧ addCidr "ipv6" "2001:db8::1" Json.null = some "2001:db8::/32"
    ∧ addCidr "ipv6" "2001:db8::1" Json.null ≠ some "2001:db8::1/128" := by
  refine ⟨?_, ?_, ?_⟩ <;> decide

/-! ### Lemmas about the run model -/

theorem applyChunks_no_cacheWrite (env : Env) (existing : List (List (String × Json))) :
    ∀ (chunks : List (String × List String)) (cs : List String),
      Effect.writeCache cs ∉ (applyChunks env existing chunks).1 := by
  intro chunks
  induction chunks with
  | nil => intro cs; simp [applyChunks]
  | cons c rest ih =>
    intro cs
    obtain ⟨name, slice⟩ := c
    simp only [applyChunks]
    cases hf : findByName existing name <;>
      by_cases ha : env.applyOk name slice <;>
        simp [hf, ha, ih]

theorem applyChunks_all_remote (env : Env) (existing : List (List (String × Json))) :
    ∀ (chunks : List (String × List String)),
      ∀ e ∈ (applyChunks env existing chunks).1,
        e = Effect.login ∨ isMutationCall e = true ∨ (∃ n, e = Effect.backup n) := by
  intro chunks
  induction chunks with
  | nil => simp [applyChunks]
  | cons c rest ih =>
    obtain ⟨name, slice⟩ := c
    intro e he
    simp only [applyChunks] at he
    split at he
    · split at he
      · rcases List.mem_cons.mp he with h | h
        · subst h; exact Or.inr (Or.inr ⟨name, rfl⟩)
        · rcases List.mem_cons.mp h with h2 | h2
          · subst h2; exact Or.inr (Or.inl rfl)
          · exact ih e h2
      · rcases List.mem_cons.mp he with h | h
        · subst h; exact Or.inr (Or.inr ⟨name, rfl⟩)
        · rcases List.mem_cons.mp h with h2 | h2
          · subst h2; exact Or.inr (Or.inl rfl)
          · simp at h2
    · split at he
      · rcases List.mem_cons.mp he with h | h
        · subst h; exact Or.inr (Or.inl rfl)
        · exact ih e h
      · rcases List.mem_cons.mp he with h | h
        · subst h; exact Or.inr (Or.inl rfl)
        · simp at h

theorem runConnected_fst (cfg : Config) (env : Env) (newCidrs : List String)
    (existing : List (List (String × Json))) :
    (runConnected cfg env newCidrs existing).1 = RunResult.exit 0
    ∨ (runConnected cfg env newCidrs existing).1 = RunResult.uncaught := by
  simp only [runConnected]
  by_cases h :
      (applyChunks env existing (makeChunks cfg.dplName cfg.maxChunkCfg newCidrs)).2 <;>
    simp [h]

/-! ### C1: guard contract -/

/-- C1.  With a fetched payload: an empty previous set skips the guard
(the run is never blocked); a non-empty previous set blocks the run with
exit code 2 exactly when `|removed| / max(1, |previous|) * 100` strictly
exceeds the configured maximum, and a blocked run performs no remote
mutation. -/
theorem C1_guard_contract (cfg : Config) (env : Env) (p : Json)
    (hp : env.payload = some p) (hnd : env.oldCidrs.Nodup) :
    (env.oldCidrs = [] → (runMain cfg env).1 ≠ RunResult.exit 2)
    ∧ (env.oldCidrs ≠ [] →
        (removalPct env.oldCidrs (syncDelta env.oldCidrs (extract cfg.family p)).2
          = ((env.oldCidrs.toFinset \ (extract cfg.family p).toFinset).card : ℚ)
              / ((max 1 env.oldCidrs.toFinset.card : ℕ) : ℚ) * 100)
        ∧ ((runMain cfg env).1 = RunResult.exit 2
            ↔ removalPct env.oldCidrs (syncDelta env.oldCidrs (extract cfg.family p)).2
                > cfg.maxRemovePct)
        ∧ ((runMain cfg env).1 = RunResult.exit 2 →
            ∀ e ∈ (runMain cfg env).2, isMutationCall e = false)) := by
  have hrm : runMain cfg env = runFetched cfg env p := by
    simp [runMain, hp]
  have hnotwo :
      ¬ (env.oldCidrs ≠ []
          ∧ removalPct env.oldCidrs (syncDelta env.oldCidrs (extract cfg.family p)).2
              > cfg.maxRemovePct) →
      (runMain cfg env).1 ≠ RunResult.exit 2 := by
    intro hc
    rw [hrm, runFetched]
    simp only [if_neg hc]
    by_cases hd : env.dryRun
    · simp [hd]
    · simp only [hd, if_false, Bool.false_eq_true]
      cases hr : env.remote with
      | none => simp
      | some existing =>
        rcases runConnected_fst cfg env (extract cfg.family p) existing with h | h <;>
          simp [h]
  constructor
  · intro hempty
    apply hnotwo
    simp [hempty]
  · intro hne
    refine ⟨?_, ?_, ?_⟩
    · have hlen : (syncDelta env.oldCidrs (extract cfg.family p)).2.length
          = (env.oldCidrs.toFinset \ (extract cfg.family p).toFinset).card := by
        simp [syncDelta, Finset.length_sort]
      rw [removalPct, hlen, List.toFinset_card_of_nodup hnd]
    · constructor
      · intro h2
        by_contra hgt
        exact hnotwo (fun hc => hgt hc.2) h2
      · intro hgt
        rw [hrm, runFetched]
        simp only [if_pos (And.intro hne hgt)]
    · intro h2 e he
      by_cases hgt : removalPct env.oldCidrs
          (syncDelta env.oldCidrs (extract cfg.family p)).2 > cfg.maxRemovePct
      · rw [hrm, runFetched] at he
        simp only [if_pos (And.intro hne hgt)] at he
        rcases List.mem_singleton.mp he with rfl
        rfl
      · exact absurd h2 (hnotwo (fun hc => hgt hc.2))

theorem writeCache_mem_runConnected (cfg : Config) (env : Env) (newCidrs : List String)
    (existing : List (List (String × Json))) (cs : List String)
    (h : Effect.writeCache cs ∈ (runConnected cfg env newCidrs existing).2) :
    (runConnected cfg env newCidrs existing).1 = RunResult.exit 0
    ∧ cs = newCidrs
    ∧ (applyChunks env existing (makeChunks cfg.dplName cfg.maxChunkCfg newCidrs)).2 = true := by
  have hbase : ∀ e ∈ (match findByName existing cfg.dplName with
      | some _ => [Effect.backup cfg.dplName]
      | none => ([] : List Effect)), isCacheWrite e = false := by
    intro e he
    cases hb : findByName existing cfg.dplName <;> rw [hb] at he <;> simp at he
    subst he; rfl
  simp only [runConnected] at h ⊢
  by_cases hap :
      (applyChunks env existing (makeChunks cfg.dplName cfg.maxChunkCfg newCidrs)).2 = true
  · simp only [hap, if_true] at h ⊢
    refine ⟨trivial, ?_, trivial⟩
    rcases List.mem_cons.mp h with h1 | h1
    · simp at h1
    rcases List.mem_append.mp h1 with h2 | h2
    · rcases List.mem_append.mp h2 with h3 | h3
      · have := hbase _ h3
        simp [isCacheWrite] at this
      · exact absurd h3 (applyChunks_no_cacheWrite env existing _ cs)
    · rcases List.mem_cons.mp h2 with h4 | h4
      · exact (Effect.writeCache.injEq cs newCidrs).mp h4
      · simp at h4
  · have hap2 :
        (applyChunks env existing (makeChunks cfg.dplName cfg.maxChunkCfg newCidrs)).2 = false :=
      Bool.eq_false_iff.mpr hap
    rw [hap2] at h
    simp only [Bool.false_eq_true, if_false] at h
    exfalso
    rcases List.mem_cons.mp h with h1 | h1
    · simp at h1
    rcases List.mem_append.mp h1 with h2 | h2
    · have := hbase _ h2
      simp [isCacheWrite] at this
    · exact absurd h2 (applyChunks_no_cacheWrite env existing _ cs)

/-! ### C8: dry-run frame -/

/-- C8.  A dry run performs no remote call (no login, create or update)
and never writes the snapshot; and whenever the snapshot is written, the
run is a non-dry successful run, the written contents are the freshly
extracted set, and every chunk's apply call succeeded. -/
theorem C8_dry_run_frame (cfg : Config) (env : Env) :
    (env.dryRun = true →
      ∀ e ∈ (runMain cfg env).2, isRemoteCall e = false ∧ isCacheWrite e = false)
    ∧ (∀ cs, Effect.writeCache cs ∈ (runMain cfg env).2 →
        env.dryRun = false
        ∧ (runMain cfg env).1 = RunResult.exit 0
        ∧ ∃ p existing, env.payload = some p ∧ env.remote = some existing
            ∧ cs = extract cfg.family p
            ∧ (applyChunks env existing
                (makeChunks cfg.dplName cfg.maxChunkCfg (extract cfg.family p))).2 = true) := by
  cases hp : env.payload with
  | none =>
    have hr : runMain cfg env = (RunResult.exit 1, [Effect.notifyTeams false]) := by
      simp [runMain, hp]
    constructor
    · intro _ e he
      rw [hr] at he
      rcases List.mem_singleton.mp he with rfl
      exact ⟨rfl, rfl⟩
    · intro cs hcs
      rw [hr] at hcs
      simp at hcs
  | some p =>
    have hr : runMain cfg env = runFetched cfg env p := by
      simp [runMain, hp]
    rw [hr, runFetched]
    by_cases hguard : env.oldCidrs ≠ []
        ∧ removalPct env.oldCidrs (syncDelta env.oldCidrs (extract cfg.family p)).2
            > cfg.maxRemovePct
    · simp only [if_pos hguard]
      constructor
      · intro _ e he
        rcases List.mem_singleton.mp he with rfl
        exact ⟨rfl, rfl⟩
      · intro cs hcs
        simp at hcs
    · simp only [if_neg hguard]
      cases hd : env.dryRun with
      | true =>
        simp only [if_true]
        constructor
        · intro _ e he
          simp at he
        · intro cs hcs
          simp at hcs
      | false =>
        simp only [Bool.false_eq_true, if_false]
        cases hrem : env.remote with
        | none =>
          constructor
          · intro hcontra
            exact hcontra.elim
          · intro cs hcs
            simp at hcs
        | some existing =>
          constructor
          · intro hcontra
            exact hcontra.elim
          · intro cs hcs
            have hw := writeCache_mem_runConnected cfg env (extract cfg.family p) existing cs hcs
            exact ⟨trivial, hw.1, p, existing, rfl, rfl, hw.2.1, hw.2.2⟩

/-! ### C6: exit codes -/

/-- C6 (amended).  Exit codes: 1 for a fetch failure, 2 for a guard
block, 0 for a dry run or a fully successful apply, 3 for a connect/list
failure; a chunk apply failure is not caught inside `main`, so the
process dies on an unhandled exception, whose process exit code is 1 —
not a distinct code. -/
theorem C6_exit_codes (cfg : Config) (env : Env) :
    (env.payload = none → (runMain cfg env).1 = RunResult.exit 1)
    ∧ (∀ p, env.payload = some p →
        ((env.oldCidrs ≠ []
            ∧ removalPct env.oldCidrs (syncDelta env.oldCidrs (extract cfg.family p)).2
                > cfg.maxRemovePct) →
          (runMain cfg env).1 = RunResult.exit 2)
        ∧ (¬(env.oldCidrs ≠ []
            ∧ removalPct env.oldCidrs (syncDelta env.oldCidrs (extract cfg.family p)).2
                > cfg.maxRemovePct) →
          (env.dryRun = true → (runMain cfg env).1 = RunResult.exit 0)
          ∧ (env.dryRun = false → env.remote = none →
              (runMain cfg env).1 = RunResult.exit 3)
          ∧ (∀ existing, env.dryRun = false → env.remote = some existing →
              ((applyChunks env existing
                  (makeChunks cfg.dplName cfg.maxChunkCfg (extract cfg.family p))).2 = true →
                (runMain cfg env).1 = RunResult.exit 0)
              ∧ ((applyChunks env existing
                  (makeChunks cfg.dplName cfg.maxChunkCfg (extract cfg.family p))).2 = false →
                (runMain cfg env).1 = RunResult.uncaught
                ∧ processExit (runMain cfg env).1 = 1)))) := by
  constructor
  · intro hp
    simp [runMain, hp]
  · intro p hp
    have hr : runMain cfg env = runFetched cfg env p := by
      simp [runMain, hp]
    rw [hr, runFetched]
    constructor
    · intro hguard
      simp only [if_pos hguard]
    · intro hguard
      simp only [if_neg hguard]
      refine ⟨?_, ?_, ?_⟩
      · intro hd
        simp [hd]
      · intro hd hrem
        simp [hd, hrem]
      · intro existing hd hrem
        simp only [hd, Bool.false_eq_true, if_false, hrem]
        constructor
        · intro hap
          simp [runConnected, hap]
        · intro hap
          constructor
          · simp [runConnected, hap]
          · simp [runConnected, hap, processExit]

theorem extract_single (family : String) (data : Json) (x : String)
    (h : walk family data = {x}) : extract family data = [x] := by
  rw [extract, h, Finset.sort_singleton]

/-- Configuration used by the concrete run evaluations below. -/
def cfgDemo : Config := ⟨"ZS", 500, 25, "ipv4"⟩

/-- A run whose only chunk's create call fails. -/
def envApplyFail : Env :=
  ⟨false, some (Json.str "10.0.0.0/8"), [], some [], fun _ _ => false⟩

/-- C6, counterexample.  A chunk apply failure does not terminate with
exit code 4: the exception escapes `main` and the process exit code is 1,
the same code as a fetch failure. -/
theorem C6_apply_failure_not_exit4 :
    (runMain cfgDemo envApplyFail).1 = RunResult.uncaught
    ∧ processExit (runMain cfgDemo envApplyFail).1 = 1
    ∧ (runMain cfgDemo envApplyFail).1 ≠ RunResult.exit 4
    ∧ processExit (runMain cfgDemo envApplyFail).1 ≠ 4 := by
  have hwalk : walk "ipv4" (Json.str "10.0.0.0/8") = {"10.0.0.0/8"} := by
    simp only [walk]
    decide
  have hext := extract_single "ipv4" (Json.str "10.0.0.0/8") "10.0.0.0/8" hwalk
  have hrun : runMain cfgDemo envApplyFail
      = (RunResult.uncaught, [Effect.login, Effect.createDpl "ZS" ["10.0.0.0/8"]]) := by
    rw [runMain]
    show runFetched cfgDemo envApplyFail (Json.str "10.0.0.0/8") = _
    rw [runFetched]
    simp [cfgDemo, envApplyFail, hext, runConnected, makeChunks, applyChunks,
      findByName, removalPct, syncDelta]
  rw [hrun]
  refine ⟨rfl, rfl, by decide, by decide⟩

/-! ### C7: malformed-entry tolerance -/

theorem walkList_append (family : String) (xs ys : List Json) :
    walkList family (xs ++ ys) = walkList family xs ∪ walkList family ys := by
  induction xs with
  | nil => simp [walkList]
  | cons v vs ih => simp [walkList, ih, Finset.union_assoc]

/-- C7.  Extraction is total (it returns a set, never an error) and an
entry whose token fails address parsing contributes nothing: inserting a
malformed `ipPrefix` object anywhere into a list leaves the extracted set
unchanged, so a payload mixing malformed and valid entries yields exactly
the valid ones. -/
theorem C7_malformed_dropped (family : String) (xs ys : List Json) (s : String)
    (hbad : addCidr family s Json.null = none) :
    walk family (Json.arr (xs ++ Json.obj [("ipPrefix", Json.str s)] :: ys))
      = walk family (Json.arr (xs ++ ys)) := by
  have hset : addCidrSet family s Json.null = ∅ := by
    rw [addCidrSet, hbad]
  have hstr : walk family (Json.str s) = ∅ := by
    rw [walk]
    by_cases hc : containsChar s '/' = true
    · rw [if_pos hc, hset]
    · rw [if_neg hc]
  have hobj : walk family (Json.obj [("ipPrefix", Json.str s)]) = ∅ := by
    simp [walk, walkFields, dictShape, hasKey, pyGet, pyStr, hstr, hset]
  simp only [walk]
  rw [List.append_cons, walkList_append, walkList_append]
  simp [walkList, hobj, walkList_append]

/-! ### C9: mask-key aliases and shape priority -/

/-- C9, counterexample.  The mask-length key lookup is case-sensitive: a
spelling differing only in letter case (`MASKLENGTH`) is not recognized,
so the entry is normalized as a `/32` host instead of using the mask. -/
theorem C9_case_sensitivity_cx :
    extract "ipv4" (Json.obj [("prefix", Json.str "10.0.0.0"), ("MASKLENGTH", Json.num 24)])
      = ["10.0.0.0/32"]
    ∧ extract "ipv4" (Json.obj [("prefix", Json.str "10.0.0.0"), ("masklength", Json.num 24)])
      = ["10.0.0.0/24"]
    ∧ extract "ipv4" (Json.obj [("prefix", Json.str "10.0.0.0"), ("MASKLENGTH", Json.num 24)])
      ≠ extract "ipv4" (Json.obj [("prefix", Json.str "10.0.0.0"), ("masklength", Json.num 24)]) := by
  have h1 : walk "ipv4" (Json.obj [("prefix", Json.str "10.0.0.0"), ("MASKLENGTH", Json.num 24)])
      = {"10.0.0.0/32"} := by
    simp only [walk, walkFields]
    decide
  have h2 : walk "ipv4" (Json.obj [("prefix", Json.str "10.0.0.0"), ("masklength", Json.num 24)])
      = {"10.0.0.0/24"} := by
    simp only [walk, walkFields]
    decide
  have e1 := extract_single _ _ _ h1
  have e2 := extract_single _ _ _ h2
  refine ⟨e1, e2, ?_⟩
  rw [e1, e2]
  decide

/-- C9 (amended).  The mask-length key is recognized under exactly the
three literal aliases `masklength`, `maskLength`, `mask`, looked up
case-sensitively in that order with Python truthiness chaining; any other
key (including other casings) leaves the mask absent; and an `ipPrefix`
field takes priority over the `prefix`-plus-mask shape. -/
theorem C9_mask_aliases_and_priority (family : String) :
    (∀ (a : String) (m : Int) (key : String), m ≠ 0 → containsChar a '/' = false →
      (key = "masklength" ∨ key = "maskLength" ∨ key = "mask") →
      walk family (Json.obj [("prefix", Json.str a), (key, Json.num m)])
        = addCidrSet family a (Json.num m))
    ∧ (∀ (a : String) (m : Int) (key : String), containsChar a '/' = false →
      key ≠ "ipPrefix" → key ≠ "prefix" →
      key ≠ "masklength" → key ≠ "maskLength" → key ≠ "mask" →
      walk family (Json.obj [("prefix", Json.str a), (key, Json.num m)])
        = addCidrSet family a Json.null)
    ∧ (∀ v w : String, containsChar v '/' = false → containsChar w '/' = false →
      walk family (Json.obj [("ipPrefix", Json.str v), ("prefix", Json.str w)])
        = addCidrSet family v Json.null) := by
  refine ⟨?_, ?_, ?_⟩
  · intro a m key hm ha hkey
    have hbne : (m != 0) = true := by simp [hm]
    rcases hkey with rfl | rfl | rfl <;>
      simp [walk, walkFields, dictShape, hasKey, maskOf, pyGet, pyOr, pyStr,
        jsonTruthy, List.find?, ha, hbne]
  · intro a m key ha h1 h2 h3 h4 h5
    have e1 : (key == "ipPrefix") = false := beq_eq_false_iff_ne.mpr h1
    have e3 : (key == "masklength") = false := beq_eq_false_iff_ne.mpr h3
    have e4 : (key == "maskLength") = false := beq_eq_false_iff_ne.mpr h4
    have e5 : (key == "mask") = false := beq_eq_false_iff_ne.mpr h5
    simp [walk, walkFields, dictShape, hasKey, maskOf, pyGet, pyOr, pyStr,
      jsonTruthy, List.find?, ha, e1, e3, e4, e5]
  · intro v w hv hw
    simp [walk, walkFields, dictShape, hasKey, pyGet, pyStr, List.find?, hv, hw]

/-! ### C10: falsy mask values -/

/-- C10, counterexample.  A falsy mask under the final alias `mask` is
not treated as absent: `(\"prefix\": \"1.2.3.4\", \"mask\": 0)` yields the
`/0` network `0.0.0.0/0`, not the `/32` host the claim states, and an
empty-string mask under `mask` drops the entry entirely. -/
theorem C10_falsy_mask_cx :
    extract "ipv4" (Json.obj [("prefix", Json.str "1.2.3.4"), ("mask", Json.num 0)])
      = ["0.0.0.0/0"]
    ∧ extract "ipv4" (Json.obj [("prefix", Json.str "1.2.3.4"), ("mask", Json.num 0)])
      ≠ ["1.2.3.4/32"]
    ∧ extract "ipv4" (Json.obj [("prefix", Json.str "1.2.3.4"), ("mask", Json.str "")]) = [] := by
  have h1 : walk "ipv4" (Json.obj [("prefix", Json.str "1.2.3.4"), ("mask", Json.num 0)])
      = {"0.0.0.0/0"} := by
    simp only [walk, walkFields]
    decide
  have h2 : walk "ipv4" (Json.obj [("prefix", Json.str "1.2.3.4"), ("mask", Json.str "")])
      = ∅ := by
    simp only [walk, walkFields]
    decide
  have e1 := extract_single _ _ _ h1
  refine ⟨e1, by rw [e1]; decide, ?_⟩
  rw [extract, h2, Finset.sort_empty]

/-- C10 (amended).  A falsy value under `masklength` or `maskLength`
falls through the truthiness chain, and an absent `mask` key then yields
`None`, so the entry is normalized as a bare host; but the chain returns
the last lookup unchanged, so a falsy value stored under the final alias
`mask` is passed to `add_cidr` as-is: `0` produces a `/0` network and an
empty string makes `int()` fail, dropping the entry. -/
theorem C10_falsy_mask_amended (family a : String) (ha : containsChar a '/' = false) :
    (walk family (Json.obj [("prefix", Json.str a), ("masklength", Json.num 0)])
       = addCidrSet family a Json.null)
    ∧ (walk family (Json.obj [("prefix", Json.str a), ("maskLength", Json.num 0)])
       = addCidrSet family a Json.null)
    ∧ (walk family (Json.obj [("prefix", Json.str a), ("masklength", Json.str "")])
       = addCidrSet family a Json.null)
    ∧ (walk family (Json.obj [("prefix", Json.str a), ("mask", Json.null)])
       = addCidrSet family a Json.null)
    ∧ (walk family (Json.obj [("prefix", Json.str a), ("mask", Json.num 0)])
       = addCidrSet family a (Json.num 0))
    ∧ (walk family (Json.obj [("prefix", Json.str a), ("mask", Json.str "")])
       = addCidrSet family a (Json.str "")) := by
  have he : ("" : String).isEmpty = true := rfl
  have hc0 : containsChar "" '/' = false := rfl
  refine ⟨?_, ?_, ?_, ?_, ?_, ?_⟩ <;>
    simp [walk, walkFields, dictShape, hasKey, maskOf, pyGet, pyOr, pyStr,
      jsonTruthy, List.find?, ha, he, hc0]

/-! ### Concrete witnesses -/

/-- A bootstrap run: empty previous snapshot. -/
def envBootstrap : Env :=
  ⟨false, some (Json.str "10.0.0.0/8"), [], some [], fun _ _ => true⟩

/-- A run whose delta removes both previous entries (ratio 100%). -/
def envGuardBlocked : Env :=
  ⟨false, some (Json.str "10.0.0.0/8"), ["10.0.0.1/32", "10.0.0.2/32"], some [],
   fun _ _ => true⟩

theorem C1_guard_contract_witness :
    (runMain cfgDemo envBootstrap).1 ≠ RunResult.exit 2
    ∧ (runMain cfgDemo envGuardBlocked).1 = RunResult.exit 2 := by
  have hwalk : walk "ipv4" (Json.str "10.0.0.0/8") = {"10.0.0.0/8"} := by
    simp only [walk]
    decide
  have hext := extract_single _ _ _ hwalk
  constructor
  · exact (C1_guard_contract cfgDemo envBootstrap (Json.str "10.0.0.0/8") rfl
      (by decide)).1 rfl
  · have h := C1_guard_contract cfgDemo envGuardBlocked (Json.str "10.0.0.0/8") rfl
      (by decide)
    refine ((h.2 (by decide)).2.1).mpr ?_
    have hfam : cfgDemo.family = "ipv4" := rfl
    rw [hfam, hext]
    have hlen : (syncDelta envGuardBlocked.oldCidrs ["10.0.0.0/8"]).2.length = 2 := by
      rw [syncDelta]
      simp only [Finset.length_sort]
      decide
    rw [removalPct, hlen]
    norm_num [envGuardBlocked, cfgDemo]

theorem C3_partition_witness :
    (makeChunks "X" 2 ["a", "b", "c"]).length = 2
    ∧ (makeChunks "X" 2 ["a", "b", "c"]).map (fun c => c.1) = ["X_01", "X_02"]
    ∧ makeChunks "X" 500 ["a", "b", "c"] = [("X", ["a", "b", "c"])]
    ∧ (max 1 (-5 : Int)).toNat = 1 := by
  have hsorted : List.Sorted (fun a b => a ≤ b) (["a", "b", "c"] : List String) := by
    simp [List.sorted_cons, String.le_iff_toList_le]
    decide
  have h := C3_partition "X" 2 ["a", "b", "c"] hsorted
  have h500 := C3_partition "X" 500 ["a", "b", "c"] hsorted
  have hneg := C3_partition "X" (-5) [] List.sorted_nil
  refine ⟨?_, ?_, ?_, ?_⟩
  · exact ((h.2.2 (by decide)).1).trans (by decide)
  · exact ((h.2.2 (by decide)).2.2.2.1).trans (by decide)
  · exact h500.2.1 (by decide)
  · exact hneg.1 (by decide)

/-- Existing remote objects used by the planner witness. -/
def existingDemo : List (List (String × Json)) :=
  [[("name", Json.str "X_02"), ("listId", Json.str "id-2")]]

theorem C4_planner_witness :
    planChunk existingDemo "X_02" = PlanAction.update (Json.str "id-2")
    ∧ planChunk existingDemo "X_01" = PlanAction.create
    ∧ (buildPlan existingDemo [("X_01", ["a"]), ("X_02", ["b"])]).map (fun e => (e.1, e.2.1))
        = [("X_01", ["a"]), ("X_02", ["b"])] := by
  have h := C4_planner existingDemo [("X_01", ["a"]), ("X_02", ["b"])]
  refine ⟨?_, h.2.2.2 "X_01" (by decide), h.1⟩
  obtain ⟨item, hfind, _, hplan⟩ := h.2.2.1 "X_02" (by decide)
  have hconc : findByName existingDemo "X_02"
      = some [("name", Json.str "X_02"), ("listId", Json.str "id-2")] := rfl
  rw [hconc] at hfind
  have : item = [("name", Json.str "X_02"), ("listId", Json.str "id-2")] :=
    (Option.some.injEq _ _).mp hfind.symm
  subst this
  exact hplan

/-- A run whose feed fetch fails. -/
def envFetchFail : Env := ⟨false, none, [], none, fun _ _ => true⟩

theorem C6_exit_codes_witness :
    (runMain cfgDemo envFetchFail).1 = RunResult.exit 1 :=
  (C6_exit_codes cfgDemo envFetchFail).1 rfl

theorem C7_malformed_dropped_witness :
    walk "ipv4" (Json.arr ([] ++ Json.obj [("ipPrefix", Json.str "not-an-ip")]
        :: [Json.obj [("ipPrefix", Json.str "10.0.0.0/24")]]))
      = walk "ipv4" (Json.arr ([] ++ [Json.obj [("ipPrefix", Json.str "10.0.0.0/24")]]))
    ∧ extract "ipv4" (Json.arr [Json.obj [("ipPrefix", Json.str "10.0.0.0/24")]])
      = ["10.0.0.0/24"] := by
  constructor
  · exact C7_malformed_dropped "ipv4" [] [Json.obj [("ipPrefix", Json.str "10.0.0.0/24")]]
      "not-an-ip" (by decide)
  · apply extract_single
    simp only [walk, walkList, walkFields]
    decide

/-- A run whose single chunk applies successfully. -/
def envApplyOk : Env :=
  ⟨false, some (Json.str "10.0.0.0/8"), [], some [], fun _ _ => true⟩

theorem C8_dry_run_frame_witness :
    (runMain cfgDemo envApplyOk).1 = RunResult.exit 0
    ∧ envApplyOk.dryRun = false := by
  have hwalk : walk "ipv4" (Json.str "10.0.0.0/8") = {"10.0.0.0/8"} := by
    simp only [walk]
    decide
  have hext := extract_single _ _ _ hwalk
  have hrun : runMain cfgDemo envApplyOk
      = (RunResult.exit 0,
         [Effect.login, Effect.createDpl "ZS" ["10.0.0.0/8"],
          Effect.writeCache ["10.0.0.0/8"], Effect.notifyTeams true]) := by
    rw [runMain]
    show runFetched cfgDemo envApplyOk (Json.str "10.0.0.0/8") = _
    rw [runFetched]
    simp [cfgDemo, envApplyOk, hext, runConnected, makeChunks, applyChunks,
      findByName, removalPct, syncDelta]
  have hmem : Effect.writeCache ["10.0.0.0/8"] ∈ (runMain cfgDemo envApplyOk).2 := by
    rw [hrun]
    simp
  have h := (C8_dry_run_frame cfgDemo envApplyOk).2 ["10.0.0.0/8"] hmem
  exact ⟨h.2.1, h.1⟩

theorem C9_mask_aliases_and_priority_witness :
    walk "ipv4" (Json.obj [("prefix", Json.str "10.0.0.0"), ("maskLength", Json.num 24)])
      = addCidrSet "ipv4" "10.0.0.0" (Json.num 24)
    ∧ walk "ipv4" (Json.obj [("prefix", Json.str "10.0.0.0"), ("Mask", Json.num 24)])
      = addCidrSet "ipv4" "10.0.0.0" Json.null
    ∧ walk "ipv4" (Json.obj [("ipPrefix", Json.str "9.9.9.9"), ("prefix", Json.str "8.8.8.8")])
      = addCidrSet "ipv4" "9.9.9.9" Json.null := by
  have h := C9_mask_aliases_and_priority "ipv4"
  exact ⟨h.1 "10.0.0.0" 24 "maskLength" (by decide) (by decide) (Or.inr (Or.inl rfl)),
    h.2.1 "10.0.0.0" 24 "Mask" (by decide) (by decide) (by decide) (by decide) (by decide)
      (by decide),
    h.2.2 "9.9.9.9" "8.8.8.8" (by decide) (by decide)⟩

theorem C10_falsy_mask_amended_witness :
    walk "ipv4" (Json.obj [("prefix", Json.str "1.2.3.4"), ("masklength", Json.num 0)])
      = addCidrSet "ipv4" "1.2.3.4" Json.null
    ∧ walk "ipv4" (Json.obj [("prefix", Json.str "1.2.3.4"), ("mask", Json.num 0)])
      = addCidrSet "ipv4" "1.2.3.4" (Json.num 0) := by
  have h := C10_falsy_mask_amended "ipv4" "1.2.3.4" (by decide)
  exact ⟨h.1, h.2.2.2.2.1⟩
